import Mathlib

/-!
# Verification of the `openfigi` Go client (github.com/tomarus/openfigi)

Shallow embedding of the package's core logic: identifier validation
(`NewRequest`), request serialization (`json.Marshal` of a one-element
`[]*FIGIRequest` batch), the cache-aside layer keyed on the serialized request
bytes, and the two-shape classification of the HTTP-200 response body
performed by `FIGIRequest.Do`.

JSON values are embedded as the inductive `Json`; the behavior of Go's
`encoding/json` on the concrete target types used by the source
(`[]map[string][]*FIGI`, `[]map[string]string`, `[]*FIGI`, and the marshalling
of `[]*FIGIRequest` / `[]*FIGI`) is translated into explicit decode/encode
functions.  Bytes are modelled as `List Char`.  The external Redis store is
modelled through its GET/SET contract as an association list plus explicit
failure flags; the HTTP transport is modelled as the `Except`-valued response
it delivers, and `Do`'s outcome records whether the transport was invoked.
-/

namespace OpenFIGI

/-- A JSON value (the body of an HTTP response, or a cached value). -/
inductive Json where
  | null
  | bool (b : Bool)
  | num (n : Int)
  | str (s : String)
  | arr (xs : List Json)
  | obj (fields : List (String × Json))

/-- The `FIGI` struct (main.go lines 78-91): twelve opaque string fields. -/
structure FIGI where
  figi : String
  securityType : String
  marketSector : String
  ticker : String
  name : String
  uniqueID : String
  exchangeCode : String
  shareClassFIGI : String
  compositeFIGI : String
  securityType2 : String
  securityDescription : String
  uniqueIDFutOpt : String
deriving DecidableEq, Repr

/-- The `FIGIRequest` struct (main.go lines 94-104).  The six exported fields all
carry `json:"...,omitempty"` tags; `apiKey` and `timeout` are unexported and
therefore invisible to `encoding/json`.  `timeout` is in nanoseconds. -/
structure FIGIRequest where
  IDType : String
  IDValue : String
  ExchangeCode : String := ""
  MICCode : String := ""
  Currency : String := ""
  MarketSector : String := ""
  apiKey : String := ""
  timeout : Nat := 0
deriving DecidableEq, Repr

/-- Go `time.Second` is 1e9 ns; `defaultTimeout = 10 * time.Second` (line 60). -/
def defaultTimeout : Nat := 10 * 1000000000

/-- The errors `Do`/`NewRequest` can surface.  The five sentinel values are the
package-level `errors.New` values of main.go lines 62-75; `Generic msg` is the
`fmt.Errorf(data[0]["error"])` error of line 220; `JSONError` stands for an
`encoding/json` unmarshalling error returned verbatim; `Transport`/`Redis`
stand for an `http.Client.Do` / redis connection error returned verbatim. -/
inductive GoError where
  | NotValidIdentifier
  | WrongStatus
  | APIError
  | NoIdentifierFound
  | CacheError
  | Generic (msg : String)
  | JSONError
  | Transport (msg : String)
  | Redis (msg : String)
deriving DecidableEq, Repr

/-- The `ValidIdentifiers` list (main.go lines 107-129), in source order. -/
def ValidIdentifiers : List String :=
  ["ID_ISIN", "ID_BB_UNIQUE", "ID_SEDOL", "ID_COMMON", "ID_WERTPAPIER",
   "ID_CUSIP", "ID_CINS", "ID_BB", "ID_ITALY", "ID_EXCH_SYMBOL",
   "ID_FULL_EXCHANGE_SYMBOL", "COMPOSITE_ID_BB_GLOBAL",
   "ID_BB_GLOBAL_SHARE_CLASS_LEVEL", "ID_BB_GLOBAL", "ID_BB_SEC_NUM_DES",
   "TICKER", "ID_CUSIP_8_CHR", "OCC_SYMBOL", "UNIQUE_ID_FUT_OPT",
   "OPRA_SYMBOL", "TRADING_SYSTEM_IDENTIFIER"]

/-- Function `isValidIdentifier` (lines 131-138): linear scan for string equality. -/
def isValidIdentifier (v : String) : Bool :=
  ValidIdentifiers.any (fun i => v == i)

/-- Function `NewRequest` (lines 141-146). -/
def NewRequest (idtype idvalue : String) : Except GoError FIGIRequest :=
  if !isValidIdentifier idtype then
    .error .NotValidIdentifier
  else
    .ok { IDType := idtype, IDValue := idvalue, timeout := defaultTimeout }

/-- Setter `(*FIGIRequest).APIKey` (lines 151-153). -/
def FIGIRequest.setAPIKey (fr : FIGIRequest) (key : String) : FIGIRequest :=
  { fr with apiKey := key }

/-- Setter `(*FIGIRequest).Exchange` (lines 156-158). -/
def FIGIRequest.Exchange (fr : FIGIRequest) (exch : String) : FIGIRequest :=
  { fr with ExchangeCode := exch }

/-- The headers set by `Do` (lines 180-183): `Content-Type` always, the API
key header exactly when `fr.apiKey` is non-empty. -/
def requestHeaders (fr : FIGIRequest) : List (String × String) :=
  let h := [("Content-Type", "application/json")]
  if fr.apiKey != "" then h ++ [("X-OPENFIGI-APIKEY", fr.apiKey)] else h

/-! ## Serialization: `json.Marshal([]*FIGIRequest{fr})`

`encoding/json` writes struct fields in declaration order, drops
`omitempty` fields whose value is the empty string, and escapes string
contents (`"` and `\` by backslash, `\n`/`\r`/`\t` short-form, other control
characters and the HTML-sensitive `<`, `>`, `&` as well as U+2028/U+2029 in
`\uXXXX` form with lowercase hex digits). -/

/-- Lowercase hex digit, as indexed from `"0123456789abcdef"`. -/
def hexDigitChar (n : Nat) : Char :=
  "0123456789abcdef".data.getD n '0'

/-- The bytes `encoding/json` emits for one character of a string value. -/
def escapeChar (c : Char) : List Char :=
  if c = '"' then ['\\', '"']
  else if c = '\\' then ['\\', '\\']
  else if c = '\n' then ['\\', 'n']
  else if c = '\r' then ['\\', 'r']
  else if c = '\t' then ['\\', 't']
  else if c.toNat < 32 ∨ c = '<' ∨ c = '>' ∨ c = '&' ∨
          c.toNat = 8232 ∨ c.toNat = 8233 then
    ['\\', 'u', hexDigitChar (c.toNat / 4096 % 16), hexDigitChar (c.toNat / 256 % 16),
     hexDigitChar (c.toNat / 16 % 16), hexDigitChar (c.toNat % 16)]
  else [c]

/-- String-content escaping, character by character. -/
def escapeList : List Char → List Char
  | [] => []
  | c :: rest => escapeChar c ++ escapeList rest

/-- One `"key":"value"` member of a JSON object of string fields. -/
def renderPair (p : String × String) : List Char :=
  '"' :: escapeList p.1.data ++ '"' :: ':' :: '"' :: escapeList p.2.data ++ ['"']

/-- Members after the first one, each preceded by a comma. -/
def renderRest : List (String × String) → List Char
  | [] => []
  | p :: ps => ',' :: renderPair p ++ renderRest ps

/-- The members of a JSON object of string fields, comma-separated. -/
def renderFields : List (String × String) → List Char
  | [] => []
  | p :: ps => renderPair p ++ renderRest ps

/-- An `omitempty` string field: present exactly when the value is non-empty. -/
def optField (k v : String) : List (String × String) :=
  if v = "" then [] else [(k, v)]

/-- The wire fields of a `FIGIRequest`, in struct declaration order.  The
unexported `apiKey` and `timeout` never appear. -/
def requestFields (fr : FIGIRequest) : List (String × String) :=
  optField "idType" fr.IDType ++ optField "idValue" fr.IDValue ++
  optField "exchCode" fr.ExchangeCode ++ optField "micCode" fr.MICCode ++
  optField "currency" fr.Currency ++ optField "marketSecDes" fr.MarketSector

/-- Bytes of `json.Marshal([]*FIGIRequest{fr})` (Do, lines 165-166): a one-element JSON
array holding the single request object.  These bytes are also the cache key. -/
def marshalRequestBytes (fr : FIGIRequest) : List Char :=
  '[' :: '\x7b' :: renderFields (requestFields fr) ++ ['\x7d', ']']

/-! ## Decoding the response body

`Do` (lines 203-226) first tries `json.Unmarshal(body, &[]map[string][]*FIGI{})`
(the success shape) and, if that errors, `json.Unmarshal(body, &[]map[string]string{})`
(the error shape).  The functions below translate `encoding/json`'s behavior on
those target types: JSON `null` unmarshals into anything as a no-op (leaving
the zero value), object keys land in maps verbatim and in struct fields by
case-insensitive match on the `json` tag, and a value of the wrong JSON kind
makes the whole `Unmarshal` call return a non-nil error — which is all the
call sites observe, so decoding is `Option`-valued here. -/

/-- Decode a JSON value into a Go `string` (`null` keeps the zero value). -/
def asString : Json → Option String
  | .str s => some s
  | .null => some ""
  | _ => none

/-- Decode every element of a list, failing if any element fails (the shape of
`encoding/json`'s array/object loops at these call sites). -/
def decodeAll (f : α → Option β) : List α → Option (List β)
  | [] => some []
  | x :: xs =>
    match f x, decodeAll f xs with
    | some y, some ys => some (y :: ys)
    | _, _ => none

/-- Decode into `map[string]string` (one error-shape envelope).  Duplicate
keys are kept in order; reads take the last occurrence, as Go's decoder
overwrites earlier map entries. -/
def decodeStringMap : Json → Option (List (String × String))
  | .obj fields => decodeAll (fun p => (asString p.2).map (fun s => (p.1, s))) fields
  | .null => some []
  | _ => none

/-- Decode into `[]map[string]string` (the error shape, line 207). -/
def unmarshalErrorShape : Json → Option (List (List (String × String)))
  | .arr xs => decodeAll decodeStringMap xs
  | .null => some []
  | _ => none

/-- Go-map indexing: the last stored value for a key, or `none` (Go's zero
value) when the key is absent. -/
def lookupLast : List (String × β) → String → Option β
  | [], _ => none
  | p :: rest, k =>
    match lookupLast rest k with
    | some v => some v
    | none => if p.1 = k then some p.2 else none

/-- The `json` tags of the `FIGI` struct fields, in declaration order. -/
def figiTags : List String :=
  ["figi", "securityType", "marketSector", "ticker", "name", "uniqueID",
   "exchCode", "shareClassFIGI", "compositeFIGI", "securityType2",
   "securityDescription", "uniqueIDFutOpt"]

/-- ASCII-fold a key character by character. -/
def lowerList : List Char → List Char
  | [] => []
  | c :: cs => c.toLower :: lowerList cs

/-- Go `encoding/json` matches incoming object keys to struct `json` tags
case-insensitively (ASCII fold suffices for these tags). -/
def tagMatch (key tag : String) : Bool :=
  lowerList key.data == lowerList tag.data

/-- The last incoming value stored into the struct field tagged `tag`. -/
def lookupTag : List (String × Json) → String → Option Json
  | [], _ => none
  | p :: rest, tag =>
    match lookupTag rest tag with
    | some v => some v
    | none => if tagMatch p.1 tag then some p.2 else none

/-- The decoded string field for `tag` (zero value when absent or `null`). -/
def figiField (fields : List (String × Json)) (tag : String) : String :=
  match lookupTag fields tag with
  | some (.str s) => s
  | _ => ""

/-- Decode a JSON object into a `FIGI` struct: every incoming value aimed at a
known (tagged) field must be a string or `null`, unknown keys are skipped
whatever their value. -/
def decodeFIGI : Json → Option FIGI
  | .obj fields =>
    if fields.all (fun p =>
        if figiTags.any (fun t => tagMatch p.1 t) then (asString p.2).isSome else true) then
      some { figi := figiField fields "figi",
             securityType := figiField fields "securityType",
             marketSector := figiField fields "marketSector",
             ticker := figiField fields "ticker",
             name := figiField fields "name",
             uniqueID := figiField fields "uniqueID",
             exchangeCode := figiField fields "exchCode",
             shareClassFIGI := figiField fields "shareClassFIGI",
             compositeFIGI := figiField fields "compositeFIGI",
             securityType2 := figiField fields "securityType2",
             securityDescription := figiField fields "securityDescription",
             uniqueIDFutOpt := figiField fields "uniqueIDFutOpt" }
    else none
  | _ => none

/-- Decode into `*FIGI`: `null` gives a nil pointer. -/
def decodeFIGIPtr : Json → Option (Option FIGI)
  | .null => some none
  | j => (decodeFIGI j).map some

/-- Decode into `[]*FIGI`.  Go distinguishes a nil slice from a non-nil one
(`Do` tests `cached != nil` and `json.Marshal` writes `null` for nil), so the
decoded value is `Option (List _)`: JSON `null` gives `none` (the nil slice),
a JSON array gives `some` of the element list. -/
def decodeFIGIList : Json → Option (Option (List (Option FIGI)))
  | .arr xs => (decodeAll decodeFIGIPtr xs).map some
  | .null => some none
  | _ => none

/-- Decode into `map[string][]*FIGI` (one success-shape envelope). -/
def decodeFIGIMap : Json → Option (List (String × Option (List (Option FIGI))))
  | .obj fields => decodeAll (fun p => (decodeFIGIList p.2).map (fun l => (p.1, l))) fields
  | .null => some []
  | _ => none

/-- Decode into `[]map[string][]*FIGI` (the success shape, line 203). -/
def unmarshalSuccessShape : Json → Option (List (List (String × Option (List (Option FIGI)))))
  | .arr xs => decodeAll decodeFIGIMap xs
  | .null => some []
  | _ => none

/-! ## `fmt.Errorf` with no operands

Line 220 passes the upstream error message to `fmt.Errorf` as the *format*
string with no operands, so `%`-verbs in the message are processed: a verb
with no argument renders as `%!v(MISSING)`, a bare trailing `%` as
`%!(NOVERB)`, and `%%` as a literal percent.  Translated below for format
strings without `*` widths or explicit argument indexes (which the upstream
messages classified here do not constrain further). -/

/-- Go `fmt` flag characters. -/
def isFmtFlag (c : Char) : Bool :=
  c = '#' ∨ c = '0' ∨ c = '-' ∨ c = ' ' ∨ c = '+'

/-- Skip the flags, width and precision of a `%`-directive. -/
def skipFmtFlags (l : List Char) : List Char :=
  match (l.dropWhile isFmtFlag).dropWhile Char.isDigit with
  | [] => []
  | c :: r => if c = '.' then r.dropWhile Char.isDigit else c :: r

/-- Go `fmt.Sprintf(format)` with zero operands, over the format's characters.
Structural recursion on a fuel bound (`skipFmtFlags` never lengthens its
input, so `length + 1` fuel always suffices and the `0` case is unreachable). -/
def sprintfAux : Nat → List Char → List Char
  | 0, _ => []
  | _ + 1, [] => []
  | fuel + 1, '%' :: rest =>
    match skipFmtFlags rest with
    | [] => "%!(NOVERB)".data
    | '%' :: r => '%' :: sprintfAux fuel r
    | v :: r => '%' :: '!' :: v :: "(MISSING)".data ++ sprintfAux fuel r
  | fuel + 1, c :: rest => c :: sprintfAux fuel rest

/-- Go `fmt.Sprintf(format)` with zero operands. -/
def sprintfNoOperands (l : List Char) : List Char :=
  sprintfAux (l.length + 1) l

/-- Go `fmt.Errorf(msg)` (line 220): the message is the format string. -/
def goErrorf (msg : String) : GoError :=
  .Generic (String.mk (sprintfNoOperands msg.data))

/-! ## Cache-aside layer (`RedisCache`, `getCache`, `setCache`, lines 234-284)

The external store is its GET/SET contract: an association list from key
bytes to stored JSON values, plus flags for a failing GET or SET round-trip.
`rpool == nil` (caching never enabled) is the `enabled := false` state.
Redis `SET` overwrites; prepending with first-match lookup models that. -/

/-- The process-wide cache state plus the store's behavior for this call. -/
structure Cache where
  enabled : Bool
  store : List (List Char × Json)
  getErr : Option String
  setErr : Option String

/-- Redis `GET`: the most recently `SET` value for the key, if any. -/
def lookupStore : List (List Char × Json) → List Char → Option Json
  | [], _ => none
  | p :: rest, k => if p.1 = k then some p.2 else lookupStore rest k

/-- Redis `SET` (overwrite). -/
def storeSet (store : List (List Char × Json)) (k : List Char) (v : Json) :
    List (List Char × Json) :=
  (k, v) :: store

/-- Bytes-level value of `json.Marshal` of a `FIGI`: all twelve fields, declaration order. -/
def figiToJson (f : FIGI) : Json :=
  .obj [("figi", .str f.figi), ("securityType", .str f.securityType),
        ("marketSector", .str f.marketSector), ("ticker", .str f.ticker),
        ("name", .str f.name), ("uniqueID", .str f.uniqueID),
        ("exchCode", .str f.exchangeCode), ("shareClassFIGI", .str f.shareClassFIGI),
        ("compositeFIGI", .str f.compositeFIGI), ("securityType2", .str f.securityType2),
        ("securityDescription", .str f.securityDescription),
        ("uniqueIDFutOpt", .str f.uniqueIDFutOpt)]

/-- Marshalling a `*FIGI`: a nil pointer marshals to `null`. -/
def figiPtrToJson : Option FIGI → Json
  | none => .null
  | some f => figiToJson f

/-- Marshalling the `[]*FIGI` cache value (`setCache`, line 278): a nil slice
(`none`) marshals to `null`, a non-nil slice to a JSON array. -/
def marshalFIGIs (records : Option (List (Option FIGI))) : Json :=
  match records with
  | none => .null
  | some l => .arr (l.map figiPtrToJson)

/-- Function `getCache` (lines 249-269): it returns a `[]*FIGI` (here
`Option (List _)`, `none` being Go's nil slice) and an error.  A nil slice
with no error — caching disabled, key absent, or a stored `null` decoding back
to a nil slice — is exactly what `Do`'s `cached != nil` test then treats as a
miss.  Connection and decode errors are surfaced verbatim. -/
def getCache (cache : Cache) (key : List Char) :
    Except GoError (Option (List (Option FIGI))) :=
  if !cache.enabled then .ok none
  else
    match cache.getErr with
    | some m => .error (.Redis m)
    | none =>
      match lookupStore cache.store key with
      | none => .ok none
      | some v =>
        match decodeFIGIList v with
        | none => .error .JSONError
        | some records => .ok records

/-- Function `setCache` (lines 271-284): no-op when caching is disabled, otherwise
marshal the records and `SET`; a store failure is returned to `Do`. -/
def setCache (cache : Cache) (key : List Char) (records : Option (List (Option FIGI))) :
    Except GoError (List (List Char × Json)) :=
  if !cache.enabled then .ok cache.store
  else
    match cache.setErr with
    | some m => .error (.Redis m)
    | none => .ok (storeSet cache.store key (marshalFIGIs records))

/-! ## `Do` (lines 164-232) -/

/-- A transport-level HTTP response (status code and already-read body; the
body is a JSON value, covering every well-formed body). -/
structure HTTPResponse where
  statusCode : Nat
  body : Json

/-- The observable outcome of one `Do` call: the returned value or error,
whether the HTTP transport was invoked, and the store contents afterwards. -/
structure DoResult where
  result : Except GoError (Option (List (Option FIGI)))
  transportCalled : Bool
  store : List (List Char × Json)

/-- Lines 206-222: the success shape failed to decode; try the error shape and
classify.  `data[0]["error"]` reads the Go map (absent key gives `""`). -/
def classifyError (body : Json) : GoError :=
  match unmarshalErrorShape body with
  | none => .JSONError
  | some [] => .APIError
  | some (env :: _) =>
    let e := (lookupLast env "error").getD ""
    if e = "No identifier found." then .NoIdentifierFound
    else if e ≠ "" then goErrorf e
    else .APIError

/-- Lines 194-231: the part of `Do` after a transport response arrived:
status check, two-attempt body classification, cache write on success. -/
def doResponse (fr : FIGIRequest) (cache : Cache) (resp : HTTPResponse) : DoResult :=
  if resp.statusCode ≠ 200 then ⟨.error .WrongStatus, true, cache.store⟩
  else
    match unmarshalSuccessShape resp.body with
    | none => ⟨.error (classifyError resp.body), true, cache.store⟩
    | some [] => ⟨.error .APIError, true, cache.store⟩
    | some (env :: _) =>
      match setCache cache (marshalRequestBytes fr) ((lookupLast env "data").getD none) with
      | .error _ => ⟨.error .CacheError, true, cache.store⟩
      | .ok store₂ => ⟨.ok ((lookupLast env "data").getD none), true, store₂⟩

/-- Method `(*FIGIRequest).Do` (lines 164-232): serialize the one-element batch,
consult the cache (a hit or a cache error short-circuits before the transport),
perform the HTTP call (`transport` is what `http.Client.Do` delivers), then
classify the response. -/
def FIGIRequest.Do (fr : FIGIRequest) (cache : Cache)
    (transport : Except String HTTPResponse) : DoResult :=
  match getCache cache (marshalRequestBytes fr) with
  | .error e => ⟨.error e, false, cache.store⟩
  | .ok (some cached) => ⟨.ok (some cached), false, cache.store⟩
  | .ok none =>
    match transport with
    | .error msg => ⟨.error (.Transport msg), true, cache.store⟩
    | .ok resp => doResponse fr cache resp

/-! ## Injectivity of string-value escaping

To reason about cache-key discrimination we need that `escapeList` is
injective; this is proved by exhibiting a left inverse: a reader that consumes
an escaped string value up to its closing quote. -/

/-- Read one lowercase hex digit (the alphabet `hexDigitChar` emits). -/
def parseHexDigit (c : Char) : Option Nat :=
  if c = '0' then some 0 else if c = '1' then some 1
  else if c = '2' then some 2 else if c = '3' then some 3
  else if c = '4' then some 4 else if c = '5' then some 5
  else if c = '6' then some 6 else if c = '7' then some 7
  else if c = '8' then some 8 else if c = '9' then some 9
  else if c = 'a' then some 10 else if c = 'b' then some 11
  else if c = 'c' then some 12 else if c = 'd' then some 13
  else if c = 'e' then some 14 else if c = 'f' then some 15
  else none

/-- Consume an escaped string body up to an unescaped closing quote, returning
the unescaped content and the remaining input. -/
def parseStringBody : List Char → Option (List Char × List Char)
  | [] => none
  | c :: rest =>
    if c = '"' then some ([], rest)
    else if c = '\\' then
      match rest with
      | [] => none
      | e :: rest₂ =>
        if e = '"' then (parseStringBody rest₂).map (fun p => ('"' :: p.1, p.2))
        else if e = '\\' then (parseStringBody rest₂).map (fun p => ('\\' :: p.1, p.2))
        else if e = 'n' then (parseStringBody rest₂).map (fun p => ('\n' :: p.1, p.2))
        else if e = 'r' then (parseStringBody rest₂).map (fun p => ('\r' :: p.1, p.2))
        else if e = 't' then (parseStringBody rest₂).map (fun p => ('\t' :: p.1, p.2))
        else if e = 'u' then
          match rest₂ with
          | a :: b :: c₂ :: d :: rest₃ =>
            match parseHexDigit a, parseHexDigit b, parseHexDigit c₂, parseHexDigit d with
            | some m₁, some m₂, some m₃, some m₄ =>
              (parseStringBody rest₃).map
                (fun p => (Char.ofNat (4096 * m₁ + 256 * m₂ + 16 * m₃ + m₄) :: p.1, p.2))
            | _, _, _, _ => none
          | _ => none
        else none
    else (parseStringBody rest).map (fun p => (c :: p.1, p.2))

theorem parseHexDigit_hexDigitChar (n : Nat) (h : n < 16) :
    parseHexDigit (hexDigitChar n) = some n := by
  interval_cases n <;> rfl

theorem parseStringBody_escapeChar (c : Char) (l : List Char) :
    parseStringBody (escapeChar c ++ l) = (parseStringBody l).map (fun p => (c :: p.1, p.2)) := by
  by_cases h₁ : c = '"'
  · subst h₁
    show parseStringBody ('\\' :: '"' :: l) = _
    rw [parseStringBody.eq_def]; simp
  · by_cases h₂ : c = '\\'
    · subst h₂
      show parseStringBody ('\\' :: '\\' :: l) = _
      rw [parseStringBody.eq_def]; simp
    · by_cases h₃ : c = '\n'
      · subst h₃
        show parseStringBody ('\\' :: 'n' :: l) = _
        rw [parseStringBody.eq_def]; simp
      · by_cases h₄ : c = '\r'
        · subst h₄
          show parseStringBody ('\\' :: 'r' :: l) = _
          rw [parseStringBody.eq_def]; simp
        · by_cases h₅ : c = '\t'
          · subst h₅
            show parseStringBody ('\\' :: 't' :: l) = _
            rw [parseStringBody.eq_def]; simp
          · by_cases h₆ : c.toNat < 32 ∨ c = '<' ∨ c = '>' ∨ c = '&' ∨
                c.toNat = 8232 ∨ c.toNat = 8233
            · have hlt : c.toNat < 65536 := by
                rcases h₆ with h | h | h | h | h | h
                · omega
                · subst h; decide
                · subst h; decide
                · subst h; decide
                · omega
                · omega
              simp only [escapeChar, if_neg h₁, if_neg h₂, if_neg h₃, if_neg h₄, if_neg h₅,
                if_pos h₆, List.cons_append, List.nil_append]
              rw [parseStringBody.eq_def]
              simp only [reduceIte, Char.reduceEq]
              rw [parseHexDigit_hexDigitChar _ (by omega),
                  parseHexDigit_hexDigitChar _ (by omega),
                  parseHexDigit_hexDigitChar _ (by omega),
                  parseHexDigit_hexDigitChar _ (by omega)]
              have harith : 4096 * (c.toNat / 4096 % 16) + 256 * (c.toNat / 256 % 16) +
                  16 * (c.toNat / 16 % 16) + c.toNat % 16 = c.toNat := by omega
              dsimp only
              rw [harith, Char.ofNat_toNat]
            · simp only [escapeChar, if_neg h₁, if_neg h₂, if_neg h₃, if_neg h₄, if_neg h₅,
                if_neg h₆, List.cons_append, List.nil_append]
              rw [parseStringBody.eq_def]
              simp [h₁, h₂]

theorem parseStringBody_escapeList (s rest : List Char) :
    parseStringBody (escapeList s ++ '"' :: rest) = some (s, rest) := by
  induction s with
  | nil =>
    show parseStringBody ('"' :: rest) = _
    rw [parseStringBody.eq_def]; simp
  | cons c cs ih =>
    rw [escapeList, List.append_assoc, parseStringBody_escapeChar, ih]
    rfl

/-- Escaping (`escapeList`) followed by a closing quote is injective in both the content
and the trailing input. -/
theorem escapeList_cancel {s₁ s₂ r₁ r₂ : List Char}
    (h : escapeList s₁ ++ '"' :: r₁ = escapeList s₂ ++ '"' :: r₂) :
    s₁ = s₂ ∧ r₁ = r₂ := by
  have h₁ := parseStringBody_escapeList s₁ r₁
  rw [h, parseStringBody_escapeList] at h₁
  have h₂ := Option.some.inj h₁
  exact ⟨(congrArg Prod.fst h₂).symm, (congrArg Prod.snd h₂).symm⟩

/-! ## Supporting lemmas -/

theorem decodeAll_map_some {f : α → Option β} {g : α → β} (l : List α)
    (h : ∀ x ∈ l, f x = some (g x)) : decodeAll f l = some (l.map g) := by
  induction l with
  | nil => rfl
  | cons x xs ih =>
    have hx := h x (List.mem_cons_self x xs)
    have hxs := ih (fun y hy => h y (List.mem_cons_of_mem x hy))
    simp [decodeAll, hx, hxs]

theorem decodeAll_none {f : α → Option β} {x : α} (l : List α)
    (hx : x ∈ l) (hfx : f x = none) : decodeAll f l = none := by
  induction l with
  | nil => cases hx
  | cons y ys ih =>
    rcases List.mem_cons.mp hx with h | h
    · subst h
      simp [decodeAll, hfx]
    · simp [decodeAll, ih h]

theorem decodeAll_map_roundtrip {f : β → Option α} {g : α → β}
    (h : ∀ x, f (g x) = some x) (l : List α) : decodeAll f (l.map g) = some l := by
  induction l with
  | nil => rfl
  | cons x xs ih => simp [decodeAll, h x, ih]

set_option maxRecDepth 10000 in
/-- A `FIGI` struct round-trips through `json.Marshal` and back. -/
theorem decodeFIGI_figiToJson (f : FIGI) : decodeFIGI (figiToJson f) = some f := by
  rfl

/-- A `*FIGI` round-trips through `json.Marshal` and back. -/
theorem decodeFIGIPtr_roundtrip (r : Option FIGI) :
    decodeFIGIPtr (figiPtrToJson r) = some r := by
  cases r with
  | none => rfl
  | some f =>
    show (decodeFIGI (figiToJson f)).map some = _
    rw [decodeFIGI_figiToJson]
    rfl

/-- A `[]*FIGI` cache value round-trips through the cache encoding, nil-ness
included: a stored `null` decodes back to the nil slice. -/
theorem decodeFIGIList_marshalFIGIs (records : Option (List (Option FIGI))) :
    decodeFIGIList (marshalFIGIs records) = some records := by
  cases records with
  | none => rfl
  | some l =>
    show (decodeAll decodeFIGIPtr (l.map figiPtrToJson)).map some = some (some l)
    rw [decodeAll_map_roundtrip decodeFIGIPtr_roundtrip]
    rfl

/-- A `GET` directly after the corresponding `SET` hits. -/
theorem lookupStore_storeSet (store : List (List Char × Json)) (k : List Char) (v : Json) :
    lookupStore (storeSet store k v) k = some v := by
  simp [storeSet, lookupStore]

/-- The string carried by a decoded JSON string value (zero value otherwise). -/
def strD : Json → String
  | .str s => s
  | _ => ""

theorem decodeStringMap_str_or_null (fields : List (String × Json))
    (h : ∀ p ∈ fields, (∃ s, p.2 = Json.str s) ∨ p.2 = Json.null) :
    decodeStringMap (.obj fields) = some (fields.map (fun p => (p.1, strD p.2))) := by
  show decodeAll _ fields = _
  exact decodeAll_map_some fields (fun p hp => by
    rcases h p hp with ⟨s, hs⟩ | hs <;> simp [hs, asString, strD])

theorem lookupLast_map_val (l : List (String × Json)) (k : String) (hv : Json → String) :
    lookupLast (l.map (fun p => (p.1, hv p.2))) k = (lookupLast l k).map hv := by
  induction l with
  | nil => rfl
  | cons p ps ih =>
    cases hps : lookupLast ps k with
    | none =>
      have hm : lookupLast (ps.map (fun p => (p.1, hv p.2))) k = none := by
        rw [ih, hps]; rfl
      simp only [List.map_cons, lookupLast, hm, hps]
      by_cases hk : p.1 = k <;> simp [hk]
    | some v =>
      have hm : lookupLast (ps.map (fun p => (p.1, hv p.2))) k = some (hv v) := by
        rw [ih, hps]; rfl
      simp only [List.map_cons, lookupLast, hm, hps]
      rfl

theorem lookupLast_mem {l : List (String × β)} {k : String} {v : β}
    (h : lookupLast l k = some v) : (k, v) ∈ l := by
  induction l with
  | nil => cases h
  | cons p ps ih =>
    rw [lookupLast] at h
    cases hps : lookupLast ps k with
    | some w =>
      rw [hps] at h
      injection h with h
      subst h
      exact List.mem_cons_of_mem _ (ih hps)
    | none =>
      rw [hps] at h
      obtain ⟨a, b⟩ := p
      by_cases hk : a = k
      · rw [if_pos hk] at h
        injection h with h
        subst hk
        subst h
        exact List.mem_cons_self _ _
      · rw [if_neg hk] at h
        cases h

/-- An envelope with any string-valued member cannot decode as the success
shape (`map[string][]*FIGI` rejects a JSON string where `[]*FIGI` is due). -/
theorem unmarshalSuccessShape_str_member {fields : List (String × Json)} {k s : String}
    (h : (k, Json.str s) ∈ fields) :
    unmarshalSuccessShape (.arr [.obj fields]) = none := by
  have hmap : decodeFIGIMap (.obj fields) = none := by
    show decodeAll _ fields = none
    exact decodeAll_none fields h (by simp [decodeFIGIList])
  show decodeAll decodeFIGIMap [Json.obj fields] = none
  exact decodeAll_none _ (List.mem_singleton.mpr rfl) hmap

theorem string_ext {s t : String} (h : s.data = t.data) : s = t := by
  cases s; cases t; exact congrArg String.mk h

theorem renderRest_append (a b : List (String × String)) :
    renderRest (a ++ b) = renderRest a ++ renderRest b := by
  induction a with
  | nil => rfl
  | cons p ps ih => simp [renderRest, ih]

/-- The opening bytes of a `"key":"` member up to its value. -/
def keyOpen (k : String) : List Char :=
  '"' :: escapeList k.data ++ ['"', ':', '"']

theorem renderPair_eq (p : String × String) :
    renderPair p = keyOpen p.1 ++ (escapeList p.2.data ++ ['"']) := by
  simp [renderPair, keyOpen]

/-- The comma-prefixed rendering of an `omitempty` field determines its
value. -/
theorem renderRest_optField_inj {k e₁ e₂ : String}
    (h : renderRest (optField k e₁) = renderRest (optField k e₂)) : e₁ = e₂ := by
  by_cases h₁ : e₁ = ""
  · by_cases h₂ : e₂ = ""
    · rw [h₁, h₂]
    · rw [h₁] at h
      simp [optField, renderRest, h₂] at h
  · by_cases h₂ : e₂ = ""
    · rw [h₂] at h
      simp [optField, renderRest, h₁] at h
    · simp only [optField, if_neg h₁, if_neg h₂, renderRest, List.append_nil] at h
      injection h with _ h
      rw [renderPair_eq, renderPair_eq] at h
      have h₃ := List.append_cancel_left h
      have h₄ : escapeList e₁.data ++ '"' :: [] = escapeList e₂.data ++ '"' :: [] := by
        simpa using h₃
      exact string_ext (escapeList_cancel h₄).1

/-- Equal member renderings force equal comma-prefixed renderings: a rendered
non-empty member list is never the empty rendering, and for non-empty lists
the two renderings differ only by the leading comma. -/
theorem renderFields_imp_renderRest {L₁ L₂ : List (String × String)}
    (h : renderFields L₁ = renderFields L₂) : renderRest L₁ = renderRest L₂ := by
  cases L₁ with
  | nil =>
    cases L₂ with
    | nil => rfl
    | cons p ps =>
      exfalso
      have h₂ := congrArg List.length h
      simp [renderFields, renderPair] at h₂
  | cons p ps =>
    cases L₂ with
    | nil =>
      exfalso
      have h₂ := congrArg List.length h
      simp [renderFields, renderPair] at h₂
    | cons q qs =>
      show ',' :: renderPair p ++ renderRest ps = ',' :: renderPair q ++ renderRest qs
      have h₂ : renderPair p ++ renderRest ps = renderPair q ++ renderRest qs := h
      rw [List.cons_append, List.cons_append, h₂]

theorem key_mem_optField (k k' v : String) :
    (∃ x, (k, x) ∈ optField k' v) ↔ (k = k' ∧ v ≠ "") := by
  by_cases h : v = "" <;> simp [optField, h]

theorem isValidIdentifier_iff (v : String) :
    isValidIdentifier v = true ↔ v ∈ ValidIdentifiers := by
  simp [isValidIdentifier, List.any_eq_true]

/-! ## The claims -/

/-- C3: for every HTTP response whose status code is not 200, `Do` returns the
`WrongStatus` error and never parses the body: the response's body is
universally quantified here and the outcome does not depend on it (even when
it is valid JSON of the success shape, as the witness instantiates), and the
store is untouched.  The cache-miss hypothesis puts the call on the path that
reaches the transport at all. -/
theorem claim_C3_wrong_status (fr : FIGIRequest) (cache : Cache) (resp : HTTPResponse)
    (hmiss : getCache cache (marshalRequestBytes fr) = .ok none)
    (hstatus : resp.statusCode ≠ 200) :
    fr.Do cache (.ok resp) = ⟨.error .WrongStatus, true, cache.store⟩ := by
  simp [FIGIRequest.Do, hmiss, doResponse, hstatus]

/-- C3 witness: a 404 response whose body is valid JSON matching the success
shape still yields `WrongStatus`, with caching disabled. -/
theorem claim_C3_witness :
    FIGIRequest.Do ⟨"ID_ISIN", "US3623931009", "", "", "", "", "", 10000000000⟩
        ⟨false, [], none, none⟩
        (.ok ⟨404, .arr [.obj [("data", .arr [])]]⟩) =
      ⟨.error .WrongStatus, true, []⟩ :=
  claim_C3_wrong_status _ _ _ rfl (by decide)

/-- C4: `NewRequest idtype idvalue` fails with the `NotValidIdentifier` error
exactly when `idtype` is outside the fixed 21-element `ValidIdentifiers` list,
and succeeds (carrying the two inputs and the default timeout) otherwise.
`NewRequest` is a pure function of its two string arguments — it takes neither
a `Cache` nor a transport, so no network or cache access can occur on either
path. -/
theorem claim_C4_newRequest_validation (idtype idvalue : String) :
    (NewRequest idtype idvalue = .error .NotValidIdentifier ↔ idtype ∉ ValidIdentifiers) ∧
    (idtype ∈ ValidIdentifiers →
      NewRequest idtype idvalue =
        .ok { IDType := idtype, IDValue := idvalue, timeout := defaultTimeout }) ∧
    ValidIdentifiers.length = 21 := by
  refine ⟨?_, ?_, by decide⟩
  · by_cases h : isValidIdentifier idtype
    · rw [isValidIdentifier_iff] at h
      simp [NewRequest, (isValidIdentifier_iff idtype).mpr h, h]
    · have h₂ := h
      rw [isValidIdentifier_iff] at h₂
      simp only [NewRequest, Bool.eq_false_iff.mpr h]
      simp [h₂]
  · intro h
    simp [NewRequest, (isValidIdentifier_iff idtype).mpr h]

/-- C4 witness: `BOGUS` is rejected with `NotValidIdentifier`; `ID_ISIN` is
accepted untouched. -/
theorem claim_C4_witness :
    (NewRequest "BOGUS" "X" = .error .NotValidIdentifier) ∧
    (NewRequest "ID_ISIN" "X" =
      .ok { IDType := "ID_ISIN", IDValue := "X", timeout := defaultTimeout }) :=
  ⟨(claim_C4_newRequest_validation "BOGUS" "X").1.mpr (by decide),
   (claim_C4_newRequest_validation "ID_ISIN" "X").2.1 (by decide)⟩

/-- C5: with caching enabled, a cache miss, a 200 response whose body decodes
as the success shape (so fetch and classification succeeded), but a failing
cache `SET`, `Do` returns the `CacheError` error: the freshly fetched records
are discarded — the caller gets an error and no records — and the store is
unchanged. -/
theorem claim_C5_cache_write_failure (fr : FIGIRequest) (cache : Cache) (resp : HTTPResponse)
    (m : String) (env : List (String × Option (List (Option FIGI))))
    (rest : List (List (String × Option (List (Option FIGI)))))
    (hmiss : getCache cache (marshalRequestBytes fr) = .ok none)
    (henabled : cache.enabled = true)
    (hset : cache.setErr = some m)
    (hstatus : resp.statusCode = 200)
    (hbody : unmarshalSuccessShape resp.body = some (env :: rest)) :
    fr.Do cache (.ok resp) = ⟨.error .CacheError, true, cache.store⟩ := by
  simp [FIGIRequest.Do, hmiss, doResponse, hstatus, hbody, setCache, henabled, hset]

/-- C5 witness: enabled cache whose `SET` fails; the fetched record is
discarded and `CacheError` returned. -/
theorem claim_C5_witness :
    FIGIRequest.Do ⟨"ID_ISIN", "US3623931009", "", "", "", "", "", 10000000000⟩
        ⟨true, [], none, some "io timeout"⟩
        (.ok ⟨200, .arr [.obj [("data", .arr [.null])]]⟩) =
      ⟨.error .CacheError, true, []⟩ :=
  claim_C5_cache_write_failure _ _ _ "io timeout" [("data", some [none])] [] rfl rfl rfl rfl rfl

/-- C9: the API key never influences the serialized request body (hence nor
the cache key): any two API keys give byte-identical serializations of the
same request.  The key travels only in the headers: `X-OPENFIGI-APIKEY` is
present (with the key as value) exactly when the key is non-empty, while
`Content-Type: application/json` is always present. -/
theorem claim_C9_apikey_noninterference (fr : FIGIRequest) (k₁ k₂ : String) :
    marshalRequestBytes { fr with apiKey := k₁ } =
      marshalRequestBytes { fr with apiKey := k₂ } ∧
    (("X-OPENFIGI-APIKEY", fr.apiKey) ∈ requestHeaders fr ↔ fr.apiKey ≠ "") ∧
    ("Content-Type", "application/json") ∈ requestHeaders fr := by
  refine ⟨rfl, ?_, ?_⟩
  · by_cases h : fr.apiKey = "" <;> simp [requestHeaders, h]
  · by_cases h : fr.apiKey = "" <;> simp [requestHeaders, h]

/-- C9 witness at a concrete request and two concrete keys. -/
theorem claim_C9_witness :
    marshalRequestBytes { IDType := "ID_ISIN", IDValue := "X", apiKey := "key-one",
                          timeout := 10000000000 } =
      marshalRequestBytes { IDType := "ID_ISIN", IDValue := "X", apiKey := "key-two",
                            timeout := 10000000000 } ∧
    (("X-OPENFIGI-APIKEY", "key-one") ∈
        requestHeaders { IDType := "ID_ISIN", IDValue := "X", apiKey := "key-one",
                         timeout := 10000000000 } ↔ ("key-one" : String) ≠ "") ∧
    ("Content-Type", "application/json") ∈
      requestHeaders { IDType := "ID_ISIN", IDValue := "X", apiKey := "key-one",
                       timeout := 10000000000 } :=
  claim_C9_apikey_noninterference
    { IDType := "ID_ISIN", IDValue := "X", apiKey := "key-one", timeout := 10000000000 }
    "key-one" "key-two"

/-- C10: a 200 response decoding as the success shape with a non-empty outer
array whose first envelope has no `data` key makes `Do` return the zero-value
(nil) record list with no error — `.ok none`, Go's `nil, nil` — after invoking
the transport; when caching is enabled the nil result is also written to the
cache (as `null`) under the request's serialized bytes. -/
theorem claim_C10_missing_data_key (fr : FIGIRequest) (cache : Cache) (resp : HTTPResponse)
    (env : List (String × Option (List (Option FIGI))))
    (rest : List (List (String × Option (List (Option FIGI)))))
    (hmiss : getCache cache (marshalRequestBytes fr) = .ok none)
    (hset : cache.setErr = none)
    (hstatus : resp.statusCode = 200)
    (hbody : unmarshalSuccessShape resp.body = some (env :: rest))
    (hnodata : lookupLast env "data" = none) :
    fr.Do cache (.ok resp) =
      ⟨.ok none, true,
       if cache.enabled then storeSet cache.store (marshalRequestBytes fr) (marshalFIGIs none)
       else cache.store⟩ := by
  cases he : cache.enabled <;>
    simp [FIGIRequest.Do, hmiss, doResponse, hstatus, hbody, hnodata, setCache, hset, he]

/-- C10 witness: envelope `[{"warning":[]}]` (no `data` key) with caching
enabled: `Do` returns `.ok none` and writes `null` to the store. -/
theorem claim_C10_witness :
    FIGIRequest.Do ⟨"ID_ISIN", "US3623931009", "", "", "", "", "", 10000000000⟩
        ⟨true, [], none, none⟩
        (.ok ⟨200, .arr [.obj [("warning", .arr [])]]⟩) =
      ⟨.ok none, true,
       storeSet []
         (marshalRequestBytes ⟨"ID_ISIN", "US3623931009", "", "", "", "", "", 10000000000⟩)
         (marshalFIGIs none)⟩ :=
  claim_C10_missing_data_key _ _ _ [("warning", some [])] [] rfl rfl rfl rfl rfl

/-- C2 (code bug): line 220 passes the upstream error message to `fmt.Errorf`
as a format string with no operands, so a message containing a `%`-verb is not
carried "exactly": at the failing input, HTTP 200 with body
`[ {"error":"%d"} ]` and caching disabled, the code produces a generic error
whose message is `%!d(MISSING)` rather than `%d` as the claim requires. -/
theorem claim_C2_fmt_mangles_message :
    (FIGIRequest.Do ⟨"ID_ISIN", "X", "", "", "", "", "", 10000000000⟩
        ⟨false, [], none, none⟩
        (.ok ⟨200, .arr [.obj [("error", .str "%d")]]⟩)).result
      = .error (.Generic "%!d(MISSING)") ∧ ("%!d(MISSING)" : String) ≠ "%d" := by
  exact ⟨rfl, by decide⟩

/-- C1 counterexample: the claim promises `NoIdentifierFound` for an HTTP-200
single-envelope response with error field exactly `"No identifier found."`
"regardless of what other fields the envelope contains" — but an extra field
whose value is neither a string nor `null` (here `"data": 1`) makes the
error-shape `json.Unmarshal` into `[]map[string]string` fail, so `Do` returns
that unmarshalling error instead. -/
theorem claim_C1_counterexample :
    (FIGIRequest.Do ⟨"ID_ISIN", "US3623931009", "", "", "", "", "", 10000000000⟩
        ⟨false, [], none, none⟩
        (.ok ⟨200, .arr [.obj [("error", .str "No identifier found."),
                               ("data", .num 1)]]⟩)).result
      = .error .JSONError ∧
    (FIGIRequest.Do ⟨"ID_ISIN", "US3623931009", "", "", "", "", "", 10000000000⟩
        ⟨false, [], none, none⟩
        (.ok ⟨200, .arr [.obj [("error", .str "No identifier found."),
                               ("data", .num 1)]]⟩)).result
      ≠ .error .NoIdentifierFound := by
  constructor
  · rfl
  · intro h
    rw [show (FIGIRequest.Do ⟨"ID_ISIN", "US3623931009", "", "", "", "", "", 10000000000⟩
        ⟨false, [], none, none⟩
        (.ok ⟨200, .arr [.obj [("error", .str "No identifier found."),
                               ("data", .num 1)]]⟩)).result = .error .JSONError from rfl] at h
    simp at h

/-- C1 amended: on the cache-miss path, an HTTP-200 response carrying a single
envelope whose (last) `error` member is exactly `"No identifier found."` makes
`Do` return the `NoIdentifierFound` error regardless of what other fields the
envelope contains, *provided every member's value is a JSON string or `null`*
— exactly the condition under which the error-shape decode of
`[]map[string]string` succeeds (`null` decodes into a map entry as `""` with
no error; any other non-string value is a type error).  The string-valued
`error` member itself guarantees the success shape fails. -/
theorem claim_C1_amended (fr : FIGIRequest) (cache : Cache) (fields : List (String × Json))
    (hmiss : getCache cache (marshalRequestBytes fr) = .ok none)
    (hstr : ∀ p ∈ fields, (∃ s, p.2 = Json.str s) ∨ p.2 = Json.null)
    (herr : lookupLast fields "error" = some (Json.str "No identifier found.")) :
    (fr.Do cache (.ok ⟨200, .arr [.obj fields]⟩)).result = .error .NoIdentifierFound := by
  have hsucc := unmarshalSuccessShape_str_member (lookupLast_mem herr)
  have herrs : unmarshalErrorShape (.arr [.obj fields]) =
      some [fields.map (fun p => (p.1, strD p.2))] := by
    show decodeAll decodeStringMap [Json.obj fields] = _
    simp [decodeAll, decodeStringMap_str_or_null fields hstr]
  have hlook : lookupLast (fields.map (fun p => (p.1, strD p.2))) "error" =
      some "No identifier found." := by
    rw [lookupLast_map_val, herr]
    rfl
  simp [FIGIRequest.Do, hmiss, doResponse, hsucc, classifyError, herrs, hlook]

/-- C1 witness: an envelope with the exact error message plus an extra
string-valued field and an extra `null`-valued field classifies as
`NoIdentifierFound`. -/
theorem claim_C1_witness :
    (FIGIRequest.Do ⟨"ID_ISIN", "US3623931009", "", "", "", "", "", 10000000000⟩
        ⟨false, [], none, none⟩
        (.ok ⟨200, .arr [.obj [("error", .str "No identifier found."),
                               ("other", .str "x"), ("extra", .null)]]⟩)).result
      = .error .NoIdentifierFound :=
  claim_C1_amended _ _
    [("error", .str "No identifier found."), ("other", .str "x"), ("extra", .null)]
    rfl
    (by
      intro p hp
      rcases List.mem_cons.mp hp with h | h
      · exact Or.inl ⟨"No identifier found.", by rw [h]⟩
      · rcases List.mem_cons.mp h with h₂ | h₂
        · exact Or.inl ⟨"x", by rw [h₂]⟩
        · rcases List.mem_singleton.mp h₂ with h₃
          exact Or.inr (by rw [h₃]))
    rfl

/-- C7 counterexample: the claim says the serialized body is a one-object
array with fields `idType` and `idValue`, with only the four optional fields
omitted when unset — but `IDValue` carries `omitempty` too (main.go line 96),
so the request `NewRequest "ID_ISIN" ""` (which construction accepts)
serializes without any `idValue` member: `[`, then an object holding only
`"idType":"ID_ISIN"`, then `]`. -/
theorem claim_C7_counterexample :
    NewRequest "ID_ISIN" "" =
      .ok { IDType := "ID_ISIN", IDValue := "", timeout := 10000000000 } ∧
    "idValue" ∉
      (requestFields { IDType := "ID_ISIN", IDValue := "", timeout := 10000000000 }).map
        Prod.fst ∧
    marshalRequestBytes { IDType := "ID_ISIN", IDValue := "", timeout := 10000000000 } =
      "[\x7b\"idType\":\"ID_ISIN\"\x7d]".data := by
  refine ⟨rfl, by decide, by rfl⟩

/-- C7 amended: `Do` serializes the body as a JSON array containing exactly
one object, in which *each of the six* fields `idType`, `idValue`, `exchCode`,
`micCode`, `currency` and `marketSecDes` is omitted (never `null`) exactly
when its value is the empty string — the claim holds as stated for requests
whose `idValue` is non-empty, since `NewRequest` guarantees a non-empty
`idType`. -/
theorem claim_C7_amended (fr : FIGIRequest) :
    marshalRequestBytes fr =
      '[' :: '\x7b' :: renderFields (requestFields fr) ++ ['\x7d', ']'] ∧
    ("idType" ∈ (requestFields fr).map Prod.fst ↔ fr.IDType ≠ "") ∧
    ("idValue" ∈ (requestFields fr).map Prod.fst ↔ fr.IDValue ≠ "") ∧
    ("exchCode" ∈ (requestFields fr).map Prod.fst ↔ fr.ExchangeCode ≠ "") ∧
    ("micCode" ∈ (requestFields fr).map Prod.fst ↔ fr.MICCode ≠ "") ∧
    ("currency" ∈ (requestFields fr).map Prod.fst ↔ fr.Currency ≠ "") ∧
    ("marketSecDes" ∈ (requestFields fr).map Prod.fst ↔ fr.MarketSector ≠ "") := by
  refine ⟨rfl, ?_, ?_, ?_, ?_, ?_, ?_⟩ <;>
    simp [requestFields, List.map_append, List.mem_append, key_mem_optField]

/-- C7 witness: a fully populated request carries all six members; dropping
the exchange code drops exactly the `exchCode` member. -/
theorem claim_C7_witness :
    ("exchCode" ∈
      (requestFields { IDType := "ID_ISIN", IDValue := "X", ExchangeCode := "US",
                       MICCode := "M", Currency := "USD", MarketSector := "Equity",
                       timeout := 10000000000 }).map Prod.fst ↔ ("US" : String) ≠ "") ∧
    ("exchCode" ∈
      (requestFields { IDType := "ID_ISIN", IDValue := "X", timeout := 10000000000 }).map
        Prod.fst ↔ ("" : String) ≠ "") :=
  ⟨(claim_C7_amended { IDType := "ID_ISIN", IDValue := "X", ExchangeCode := "US",
                       MICCode := "M", Currency := "USD", MarketSector := "Equity",
                       timeout := 10000000000 }).2.2.2.1,
   (claim_C7_amended { IDType := "ID_ISIN", IDValue := "X",
                       timeout := 10000000000 }).2.2.2.1⟩

/-- C8: two requests identical except for the exchange code serialize to
distinct bytes, so (the cache key being exactly those bytes) they never read
or write the same cache entry: a `SET` under one key leaves every `GET` under
the other key unchanged. -/
theorem claim_C8_exchange_discriminates (fr₁ fr₂ : FIGIRequest)
    (h1 : fr₂.IDType = fr₁.IDType) (h2 : fr₂.IDValue = fr₁.IDValue)
    (h3 : fr₂.MICCode = fr₁.MICCode) (h4 : fr₂.Currency = fr₁.Currency)
    (h5 : fr₂.MarketSector = fr₁.MarketSector)
    (hne : fr₁.ExchangeCode ≠ fr₂.ExchangeCode) :
    marshalRequestBytes fr₁ ≠ marshalRequestBytes fr₂ ∧
    ∀ (store : List (List Char × Json)) (v : Json),
      lookupStore (storeSet store (marshalRequestBytes fr₁) v) (marshalRequestBytes fr₂) =
        lookupStore store (marshalRequestBytes fr₂) := by
  have hmain : marshalRequestBytes fr₁ ≠ marshalRequestBytes fr₂ := by
    intro hm
    apply hne
    rw [marshalRequestBytes, marshalRequestBytes] at hm
    injection hm with _ hm
    injection hm with _ hm
    have hf : renderFields (requestFields fr₁) = renderFields (requestFields fr₂) :=
      List.append_cancel_right hm
    have hr := renderFields_imp_renderRest hf
    rw [requestFields, requestFields, h1, h2, h3, h4, h5] at hr
    simp only [renderRest_append, List.append_assoc] at hr
    have hr₂ := List.append_cancel_left hr
    have hr₃ := List.append_cancel_left hr₂
    exact renderRest_optField_inj (List.append_cancel_right hr₃)
  refine ⟨hmain, ?_⟩
  intro store v
  simp [storeSet, lookupStore, hmain]

/-- C8 witness: `US` versus `GB` exchange codes on otherwise identical
requests give distinct serialized bytes. -/
theorem claim_C8_witness :
    marshalRequestBytes { IDType := "ID_ISIN", IDValue := "US3623931009",
                          ExchangeCode := "US", timeout := 10000000000 } ≠
      marshalRequestBytes { IDType := "ID_ISIN", IDValue := "US3623931009",
                            ExchangeCode := "GB", timeout := 10000000000 } :=
  (claim_C8_exchange_discriminates
    { IDType := "ID_ISIN", IDValue := "US3623931009", ExchangeCode := "US",
      timeout := 10000000000 }
    { IDType := "ID_ISIN", IDValue := "US3623931009", ExchangeCode := "GB",
      timeout := 10000000000 }
    rfl rfl rfl rfl rfl (by decide)).1

/-- Helper for C6: if a `Do` call starting from a cache miss returns a non-nil
record list, then (caching being enabled) the resulting store is exactly the
old store extended with the marshalled records under the request's serialized
bytes. -/
theorem do_miss_store {fr : FIGIRequest} {cache : Cache} {t₁ : Except String HTTPResponse}
    {records : List (Option FIGI)}
    (henabled : cache.enabled = true)
    (hgc : getCache cache (marshalRequestBytes fr) = .ok none)
    (hres : (fr.Do cache t₁).result = .ok (some records)) :
    (fr.Do cache t₁).store =
      storeSet cache.store (marshalRequestBytes fr) (marshalFIGIs (some records)) := by
  cases t₁ with
  | error msg =>
    have hdo : fr.Do cache (.error msg) = ⟨.error (.Transport msg), true, cache.store⟩ := by
      simp [FIGIRequest.Do, hgc]
    rw [hdo] at hres
    simp at hres
  | ok resp =>
    by_cases hst : resp.statusCode = 200
    · cases hu : unmarshalSuccessShape resp.body with
      | none =>
        have hdo : fr.Do cache (.ok resp) =
            ⟨.error (classifyError resp.body), true, cache.store⟩ := by
          simp [FIGIRequest.Do, hgc, doResponse, hst, hu]
        rw [hdo] at hres
        simp at hres
      | some data =>
        cases data with
        | nil =>
          have hdo : fr.Do cache (.ok resp) = ⟨.error .APIError, true, cache.store⟩ := by
            simp [FIGIRequest.Do, hgc, doResponse, hst, hu]
          rw [hdo] at hres
          simp at hres
        | cons env rest =>
          cases hse : cache.setErr with
          | some m =>
            have hdo : fr.Do cache (.ok resp) = ⟨.error .CacheError, true, cache.store⟩ := by
              simp [FIGIRequest.Do, hgc, doResponse, hst, hu, setCache, henabled, hse]
            rw [hdo] at hres
            simp at hres
          | none =>
            have hdo : fr.Do cache (.ok resp) =
                ⟨.ok ((lookupLast env "data").getD none), true,
                 storeSet cache.store (marshalRequestBytes fr)
                   (marshalFIGIs ((lookupLast env "data").getD none))⟩ := by
              simp [FIGIRequest.Do, hgc, doResponse, hst, hu, setCache, henabled, hse]
            rw [hdo] at hres
            simp only [] at hres
            injection hres with hres
            rw [hdo, hres]
    · have hdo : fr.Do cache (.ok resp) = ⟨.error .WrongStatus, true, cache.store⟩ := by
        simp [FIGIRequest.Do, hgc, doResponse, hst]
      rw [hdo] at hres
      simp at hres

/-- C6 counterexample: the claim promises that after any successful execute,
re-executing the byte-identical request is served from the cache `GET` with no
transport call — but when the first (successful) execute returns a *nil*
record list (success envelope without a `data` key), `setCache` stores `null`,
`getCache` decodes that back to a nil slice, and `Do`'s `cached != nil` test
treats it as a miss: the identical second call invokes the transport again
(`transportCalled = true`). -/
theorem claim_C6_counterexample :
    (FIGIRequest.Do ⟨"ID_ISIN", "US3623931009", "US", "", "", "", "", 10000000000⟩
        ⟨true, [], none, none⟩
        (.ok ⟨200, .arr [.obj [("warning", .arr [])]]⟩)).result = .ok none ∧
    (FIGIRequest.Do ⟨"ID_ISIN", "US3623931009", "US", "", "", "", "", 10000000000⟩
        { enabled := true,
          store := (FIGIRequest.Do ⟨"ID_ISIN", "US3623931009", "US", "", "", "", "", 10000000000⟩
              ⟨true, [], none, none⟩
              (.ok ⟨200, .arr [.obj [("warning", .arr [])]]⟩)).store,
          getErr := none, setErr := none }
        (.ok ⟨200, .arr [.obj [("warning", .arr [])]]⟩)).transportCalled = true :=
  ⟨rfl, rfl⟩

/-- C6 amended: with caching enabled and a healthy `GET`, after one `Do` whose
result is a *non-nil* record list, re-executing any request with
byte-identical serialized form against the resulting store returns exactly
those records from the cache `GET` and short-circuits with no transport call
(whatever the second transport would have answered).  When the first result is
the nil record list, the stored `null` reads back as a nil slice and is
treated as a miss, so the transport is invoked again — the counterexample. -/
theorem claim_C6_cache_roundtrip (fr fr₂ : FIGIRequest) (cache : Cache)
    (t₁ t₂ : Except String HTTPResponse) (records : List (Option FIGI))
    (henabled : cache.enabled = true) (hget : cache.getErr = none)
    (heq : marshalRequestBytes fr₂ = marshalRequestBytes fr)
    (hres : (fr.Do cache t₁).result = .ok (some records)) :
    (fr₂.Do { cache with store := (fr.Do cache t₁).store } t₂).result =
      .ok (some records) ∧
    (fr₂.Do { cache with store := (fr.Do cache t₁).store } t₂).transportCalled = false := by
  have key : ∃ v₂,
      lookupStore (fr.Do cache t₁).store (marshalRequestBytes fr) = some v₂ ∧
      decodeFIGIList v₂ = some (some records) := by
    cases hls : lookupStore cache.store (marshalRequestBytes fr) with
    | some v =>
      cases hd : decodeFIGIList v with
      | none =>
        have hdo : fr.Do cache t₁ = ⟨.error .JSONError, false, cache.store⟩ := by
          simp [FIGIRequest.Do, getCache, henabled, hget, hls, hd]
        rw [hdo] at hres
        simp at hres
      | some gs =>
        cases gs with
        | some cached =>
          have hdo : fr.Do cache t₁ = ⟨.ok (some cached), false, cache.store⟩ := by
            simp [FIGIRequest.Do, getCache, henabled, hget, hls, hd]
          rw [hdo] at hres
          simp only [] at hres
          injection hres with hres
          rw [hdo]
          exact ⟨v, hls, by rw [hd, hres]⟩
        | none =>
          have hgc : getCache cache (marshalRequestBytes fr) = .ok none := by
            simp [getCache, henabled, hget, hls, hd]
          rw [do_miss_store henabled hgc hres]
          exact ⟨_, lookupStore_storeSet _ _ _, decodeFIGIList_marshalFIGIs _⟩
    | none =>
      have hgc : getCache cache (marshalRequestBytes fr) = .ok none := by
        simp [getCache, henabled, hget, hls]
      rw [do_miss_store henabled hgc hres]
      exact ⟨_, lookupStore_storeSet _ _ _, decodeFIGIList_marshalFIGIs _⟩
  obtain ⟨v₂, hlv, hdv⟩ := key
  generalize hst : (fr.Do cache t₁).store = st at hlv ⊢
  constructor <;> simp [FIGIRequest.Do, getCache, henabled, hget, heq, hlv, hdv]

/-- C6 witness: populate an enabled empty cache with one fetched non-nil
record list, then re-execute the identical request against a transport that
would now fail; the cached record list is returned without calling the
transport. -/
theorem claim_C6_witness :
    (FIGIRequest.Do ⟨"ID_ISIN", "US3623931009", "US", "", "", "", "", 10000000000⟩
        { enabled := true,
          store := (FIGIRequest.Do ⟨"ID_ISIN", "US3623931009", "US", "", "", "", "", 10000000000⟩
              ⟨true, [], none, none⟩
              (.ok ⟨200, .arr [.obj [("data", .arr [.null])]]⟩)).store,
          getErr := none, setErr := none }
        (.error "network down")).result = .ok (some [none]) ∧
    (FIGIRequest.Do ⟨"ID_ISIN", "US3623931009", "US", "", "", "", "", 10000000000⟩
        { enabled := true,
          store := (FIGIRequest.Do ⟨"ID_ISIN", "US3623931009", "US", "", "", "", "", 10000000000⟩
              ⟨true, [], none, none⟩
              (.ok ⟨200, .arr [.obj [("data", .arr [.null])]]⟩)).store,
          getErr := none, setErr := none }
        (.error "network down")).transportCalled = false :=
  claim_C6_cache_roundtrip
    ⟨"ID_ISIN", "US3623931009", "US", "", "", "", "", 10000000000⟩
    ⟨"ID_ISIN", "US3623931009", "US", "", "", "", "", 10000000000⟩
    ⟨true, [], none, none⟩
    (.ok ⟨200, .arr [.obj [("data", .arr [.null])]]⟩)
    (.error "network down")
    [none] rfl rfl rfl rfl

end OpenFIGI
